import Mathlib

/-!
Shallow embedding of `src/navigation/recast.ts`: a pipeline that decomposes a
rectangular walkable area with convex polygonal obstacles into convex polygons.
Coordinates are modelled as rationals; the tolerance `1e-6` becomes `1/1000000`.
The external `earcut` triangulator is a black-box parameter of the pipeline.
-/

namespace Recast

/-- A 2D point, mirroring `type Point = { x: number; y: number }`. -/
structure Point where
  x : ℚ
  y : ℚ
deriving DecidableEq, Repr, Inhabited

/-- `type Polygon = Point[]`. -/
abbrev Polygon := List Point

/-- The fixed tolerance `1e-6` used by `pointsEqual`. -/
def tol : ℚ := 1 / 1000000

/-- `Math.abs` on rationals, written so the kernel can evaluate it. -/
def rabs (q : ℚ) : ℚ := if q < 0 then -q else q

/-- `pointsEqual(a, b)`: both coordinate differences below the tolerance. -/
def pointsEqual (a b : Point) : Bool :=
  decide (rabs (a.x - b.x) < tol) && decide (rabs (a.y - b.y) < tol)

/-- `Math.sign` restricted to the values the code feeds it. -/
def qsign (c : ℚ) : Int :=
  if 0 < c then 1 else if c < 0 then -1 else 0

/-- The cross product computed by `isConvex` at vertex `i`:
`(b.x-a.x)*(c.y-b.y) - (b.y-a.y)*(c.x-b.x)` with `a = poly[i]`,
`b = poly[(i+1)%n]`, `c = poly[(i+2)%n]`. -/
def crossAt (poly : Polygon) (i : Nat) : ℚ :=
  let n := poly.length
  let a := poly.getD i default
  let b := poly.getD ((i + 1) % n) default
  let c := poly.getD ((i + 2) % n) default
  (b.x - a.x) * (c.y - b.y) - (b.y - a.y) * (c.x - b.x)

/-- The loop body of `isConvex`: walk the list of cross products, tracking the
sign of the first nonzero one; a later nonzero cross of different sign fails. -/
def convexLoop : List ℚ → Int → Bool
  | [], _ => true
  | c :: rest, sign =>
    if c ≠ 0 then
      if sign = 0 then convexLoop rest (qsign c)
      else if qsign c ≠ sign then false
      else convexLoop rest sign
    else convexLoop rest sign

/-- `isConvex(poly)` from the source: polygons with fewer than 3 points are not
convex; otherwise all nonzero cross products must share one sign. -/
def isConvex (poly : Polygon) : Bool :=
  if poly.length < 3 then false
  else convexLoop ((List.range poly.length).map (crossAt poly)) 0

/-- `getEdges(poly)`: `poly.map((p, i) => [p, poly[(i+1) % poly.length]])`. -/
def getEdges (poly : Polygon) : List (Point × Point) :=
  (List.range poly.length).map fun i =>
    (poly.getD i default, poly.getD ((i + 1) % poly.length) default)

/-- The undirected edge match used by both `shareEdge` and `findSharedEdge`. -/
def edgeMatch (e1 e2 : Point × Point) : Bool :=
  (pointsEqual e1.1 e2.1 && pointsEqual e1.2 e2.2) ||
  (pointsEqual e1.1 e2.2 && pointsEqual e1.2 e2.1)

/-- `shareEdge(tri1, tri2)`: some edge of `tri1` matches some edge of `tri2`. -/
def shareEdge (tri1 tri2 : Polygon) : Bool :=
  (getEdges tri1).any fun e1 => (getEdges tri2).any fun e2 => edgeMatch e1 e2

/-- `findSharedEdge(poly1, poly2)`: the first edge of `poly1` that matches an
edge of `poly2`, or `none`. -/
def findSharedEdge (poly1 poly2 : Polygon) : Option (Point × Point) :=
  (getEdges poly1).find? fun e1 => (getEdges poly2).any fun e2 => edgeMatch e1 e2

/-- The starting splice index of `mergePolygons`:
`index = (poly2.findIndex(p => pointsEqual(p, edgeStart)) + 1) % poly2.length`,
with JavaScript `findIndex` returning `-1` (hence index `0`) when absent. -/
def spliceStart (poly2 : Polygon) (edgeStart : Point) : Nat :=
  match poly2.findIdx? (fun p => pointsEqual p edgeStart) with
  | some k => (k + 1) % poly2.length
  | none => 0

/-- The inner loop of `mergePolygons`: push `k` vertices of `poly2`, advancing
the index cyclically; returns the pushed segment and the final index. -/
def takeCyc (poly2 : Polygon) (idx : Nat) : Nat → List Point × Nat
  | 0 => ([], idx)
  | k + 1 =>
    let r := takeCyc poly2 ((idx + 1) % poly2.length) k
    (poly2.getD idx default :: r.1, r.2)

/-- The outer loop of `mergePolygons`: emit `poly1`'s vertices in order and,
after each vertex equal to `edgeStart`, splice in `poly2.length - 2` vertices
of `poly2`; the splice index persists across matches as in the source. -/
def spliceLoop (poly2 : Polygon) (edgeStart : Point) :
    List Point → Nat → List Point × Nat
  | [], idx => ([], idx)
  | p :: rest, idx =>
    if pointsEqual p edgeStart then
      let seg := takeCyc poly2 idx (poly2.length - 2)
      let r := spliceLoop poly2 edgeStart rest seg.2
      (p :: (seg.1 ++ r.1), r.2)
    else
      let r := spliceLoop poly2 edgeStart rest idx
      (p :: r.1, r.2)

/-- `mergePolygons(poly1, poly2)`: `null` when no shared edge exists, otherwise
the splice of `poly2` into `poly1` at the shared edge's first endpoint. -/
def mergePolygons (poly1 poly2 : Polygon) : Option Polygon :=
  match findSharedEdge poly1 poly2 with
  | none => none
  | some (a, _) =>
    some (spliceLoop poly2 a poly1 (spliceStart poly2 a)).1

/-- The error taxonomy of `validateInput`: the bounding-box error, and the
obstacle error carrying the 0-based position of the offending obstacle (the
source's message displays it 1-based as `障碍物${i+1}`). -/
inductive InputError where
  | invalidBoundingBox : InputError
  | invalidObstacle : Nat → InputError
deriving DecidableEq, Repr

/-- The `obstacles.forEach` of `validateInput`: the first obstacle with fewer
than 3 points or failing `isConvex` aborts with its position. -/
def validateObstacles : List Polygon → Nat → Except InputError Unit
  | [], _ => .ok ()
  | o :: rest, i =>
    if o.length < 3 then .error (.invalidObstacle i)
    else if ¬ isConvex o then .error (.invalidObstacle i)
    else validateObstacles rest (i + 1)

/-- `validateInput(boundingBox, obstacles)`. -/
def validateInput (boundingBox : Polygon) (obstacles : List Polygon) :
    Except InputError Unit :=
  if boundingBox.length ≠ 4 then .error .invalidBoundingBox
  else validateObstacles obstacles 0

/-- The `obstacles.forEach` of `prepareEarcutInput`, threading `vertexOffset`:
returns the flattened obstacle coordinates and the hole-start indices. -/
def prepLoop : List Polygon → Nat → List ℚ × List Nat
  | [], _ => ([], [])
  | o :: rest, off =>
    let r := prepLoop rest (off + o.length)
    (o.flatMap (fun p => [p.x, p.y]) ++ r.1, off :: r.2)

/-- `prepareEarcutInput(boundingBox, obstacles)`: bounding box coordinates
first, then each obstacle's, with `vertexOffset` starting at
`boundingBox.length`. -/
def prepareEarcutInput (boundingBox : Polygon) (obstacles : List Polygon) :
    List ℚ × List Nat :=
  let r := prepLoop obstacles boundingBox.length
  (boundingBox.flatMap (fun p => [p.x, p.y]) ++ r.1, r.2)

/-- One triangle of `triangulateWithEarcut`, built from the three indices at
positions `i`, `i+1`, `i+2` of the index list (each dereferenced at `idx*2`
and `idx*2+1` in the flattened vertex buffer). -/
def triangleAt (vertices : List ℚ) (indices : List Nat) (i : Nat) : Polygon :=
  (List.range 3).map fun j =>
    let idx := indices.getD (i + j) 0 * 2
    ⟨vertices.getD idx 0, vertices.getD (idx + 1) 0⟩

/-- `triangulateWithEarcut(vertices, holes)` with the external `earcut` call
abstracted as `earcutFn vertices holes 2`: the flat index list is consumed
three at a time (the source's `for (i += 3)` makes `⌈len/3⌉` triangles). -/
def triangulateWithEarcut (earcutFn : List ℚ → List Nat → Nat → List Nat)
    (vertices : List ℚ) (holes : List Nat) : List Polygon :=
  let indices := earcutFn vertices holes 2
  (List.range ((indices.length + 2) / 3)).map fun k =>
    triangleAt vertices indices (3 * k)

/-- The adjacency map of `mergeTrianglesToConvexPolygons`: entry `i` lists, in
index order, every `j ≠ i` with `shareEdge(triangles[i], triangles[j])`. -/
def buildAdjacency (triangles : List Polygon) : List (List Nat) :=
  (List.range triangles.length).map fun i =>
    (List.range triangles.length).filter fun j =>
      decide (i ≠ j) && shareEdge (triangles.getD i []) (triangles.getD j [])

/-- The inner merge loop: try each neighbor in adjacency order; accept a fusion
only when `mergePolygons` succeeds and the candidate passes `isConvex`. -/
def mergeInner (triangles : List Polygon) :
    List Nat → Polygon → List Nat → Polygon × List Nat
  | [], poly, visited => (poly, visited)
  | j :: rest, poly, visited =>
    if j ∈ visited then mergeInner triangles rest poly visited
    else
      match mergePolygons poly (triangles.getD j []) with
      | some candidate =>
        if isConvex candidate then
          mergeInner triangles rest candidate (j :: visited)
        else mergeInner triangles rest poly visited
      | none => mergeInner triangles rest poly visited

/-- The outer merge loop over triangle indices: skip visited indices, seed a
merged polygon with the current triangle, run the inner loop, emit. -/
def mergeOuter (triangles : List Polygon) (adj : List (List Nat)) :
    List Nat → List Nat → List Polygon
  | [], _ => []
  | i :: rest, visited =>
    if i ∈ visited then mergeOuter triangles adj rest visited
    else
      let r := mergeInner triangles (adj.getD i []) (triangles.getD i [])
        (i :: visited)
      r.1 :: mergeOuter triangles adj rest r.2

/-- `mergeTrianglesToConvexPolygons(triangles)`. -/
def mergeTrianglesToConvexPolygons (triangles : List Polygon) : List Polygon :=
  mergeOuter triangles (buildAdjacency triangles)
    (List.range triangles.length) []

/-- `decomposeWalkableArea(boundingBox, obstacles)`, parameterized by the
external `earcut` oracle; a thrown validation error becomes `Except.error`. -/
def decomposeWalkableArea (earcutFn : List ℚ → List Nat → Nat → List Nat)
    (boundingBox : Polygon) (obstacles : List Polygon) :
    Except InputError (List Polygon) :=
  match validateInput boundingBox obstacles with
  | .error e => .error e
  | .ok _ =>
    let pre := prepareEarcutInput boundingBox obstacles
    let triangles := triangulateWithEarcut earcutFn pre.1 pre.2
    .ok (mergeTrianglesToConvexPolygons triangles)

/-! ### Basic lemmas about the geometry primitives -/

lemma tol_pos : 0 < tol := by norm_num [tol]

lemma rabs_eq_abs (q : ℚ) : rabs q = |q| := by
  rcases lt_or_ge q 0 with h | h
  · rw [rabs, if_pos h, abs_of_neg h]
  · rw [rabs, if_neg (not_lt.mpr h), abs_of_nonneg h]

lemma pointsEqual_self (p : Point) : pointsEqual p p = true := by
  simp [pointsEqual, rabs, tol_pos]

lemma pointsEqual_comm (a b : Point) : pointsEqual a b = pointsEqual b a := by
  simp only [pointsEqual, rabs_eq_abs]
  rw [abs_sub_comm a.x b.x, abs_sub_comm a.y b.y]

lemma edgeMatch_comm (e1 e2 : Point × Point) :
    edgeMatch e1 e2 = edgeMatch e2 e1 := by
  simp only [edgeMatch]
  rw [pointsEqual_comm e1.1 e2.1, pointsEqual_comm e1.2 e2.2,
    pointsEqual_comm e1.1 e2.2, pointsEqual_comm e1.2 e2.1,
    Bool.and_comm (pointsEqual e2.2 e1.1) (pointsEqual e2.1 e1.2)]

lemma shareEdge_comm (t1 t2 : Polygon) : shareEdge t1 t2 = shareEdge t2 t1 := by
  rw [Bool.eq_iff_iff]
  simp only [shareEdge, List.any_eq_true]
  constructor
  · rintro ⟨e1, h1, e2, h2, hm⟩
    exact ⟨e2, h2, e1, h1, by rw [edgeMatch_comm]; exact hm⟩
  · rintro ⟨e2, h2, e1, h1, hm⟩
    exact ⟨e1, h1, e2, h2, by rw [edgeMatch_comm]; exact hm⟩

lemma mem_buildAdjacency (triangles : List Polygon) (i j : Nat)
    (hi : i < triangles.length) :
    j ∈ (buildAdjacency triangles).getD i [] ↔
      j < triangles.length ∧ i ≠ j ∧
        shareEdge (triangles.getD i []) (triangles.getD j []) = true := by
  have hlen : i < (buildAdjacency triangles).length := by
    simpa [buildAdjacency] using hi
  rw [List.getD_eq_getElem _ _ hlen]
  simp [buildAdjacency, List.mem_filter, List.mem_range, and_assoc]

/-! ### The convexity loop -/

lemma convexLoop_one (l : List ℚ) :
    convexLoop l 1 = true ↔ ∀ c ∈ l, 0 ≤ c := by
  induction l with
  | nil => simp [convexLoop]
  | cons c rest ih =>
    rcases lt_trichotomy c 0 with h | h | h
    · have hq : qsign c = -1 := by simp [qsign, asymm h, h]
      simp [convexLoop, h.ne, hq, h.not_le]
    · subst h
      simp [convexLoop, ih]
    · have hq : qsign c = 1 := by simp [qsign, h]
      simp [convexLoop, h.ne.symm, hq, ih, h.le]

lemma convexLoop_negOne (l : List ℚ) :
    convexLoop l (-1) = true ↔ ∀ c ∈ l, c ≤ 0 := by
  induction l with
  | nil => simp [convexLoop]
  | cons c rest ih =>
    rcases lt_trichotomy c 0 with h | h | h
    · have hq : qsign c = -1 := by simp [qsign, asymm h, h]
      simp [convexLoop, h.ne, hq, ih, h.le]
    · subst h
      simp [convexLoop, ih]
    · have hq : qsign c = 1 := by simp [qsign, h]
      simp [convexLoop, h.ne.symm, hq, h.not_le]

lemma convexLoop_zero (l : List ℚ) :
    convexLoop l 0 = true ↔ (∀ c ∈ l, 0 ≤ c) ∨ (∀ c ∈ l, c ≤ 0) := by
  induction l with
  | nil => simp [convexLoop]
  | cons c rest ih =>
    rcases lt_trichotomy c 0 with h | h | h
    · have hq : qsign c = -1 := by simp [qsign, asymm h, h]
      simp [convexLoop, h.ne, hq, convexLoop_negOne, h.not_le, h.le]
    · subst h
      simp [convexLoop, ih]
    · have hq : qsign c = 1 := by simp [qsign, h]
      simp [convexLoop, h.ne.symm, hq, convexLoop_one, h.not_le, h.le]

lemma isConvex_iff (poly : Polygon) :
    isConvex poly = true ↔
      3 ≤ poly.length ∧
        ((∀ i < poly.length, 0 ≤ crossAt poly i) ∨
          (∀ i < poly.length, crossAt poly i ≤ 0)) := by
  rw [isConvex]
  by_cases h : poly.length < 3
  · simp [h, Nat.not_le.mpr h]
  · rw [if_neg h, convexLoop_zero]
    simp [Nat.not_lt.mp h]

/-! ### Triangles always pass the convexity test -/

lemma crossAt_triangle_one (a b c : Point) :
    crossAt [a, b, c] 1 = crossAt [a, b, c] 0 := by
  simp [crossAt]
  ring

lemma crossAt_triangle_two (a b c : Point) :
    crossAt [a, b, c] 2 = crossAt [a, b, c] 0 := by
  simp [crossAt]
  ring

lemma convexLoop_const_three (k : ℚ) : convexLoop [k, k, k] 0 = true := by
  rcases lt_trichotomy k 0 with h | h | h
  · have hq : qsign k = -1 := by simp [qsign, asymm h, h]
    simp [convexLoop, h.ne, hq]
  · subst h
    simp [convexLoop]
  · have hq : qsign k = 1 := by simp [qsign, h]
    simp [convexLoop, h.ne.symm, hq]

lemma isConvex_triangle (a b c : Point) : isConvex [a, b, c] = true := by
  rw [isConvex, if_neg (by simp)]
  have hmap : (List.range ([a, b, c] : Polygon).length).map (crossAt [a, b, c]) =
      [crossAt [a, b, c] 0, crossAt [a, b, c] 0, crossAt [a, b, c] 0] := by
    have h1 := crossAt_triangle_one a b c
    have h2 := crossAt_triangle_two a b c
    simp [List.range_succ, h1, h2]
  rw [hmap]
  exact convexLoop_const_three _

lemma isConvex_of_length_three (t : Polygon) (h : t.length = 3) :
    isConvex t = true := by
  match t, h with
  | [a, b, c], _ => exact isConvex_triangle a b c

/-! ### Shared-edge search characterization -/

lemma findSharedEdge_eq_none_iff (poly1 poly2 : Polygon) :
    findSharedEdge poly1 poly2 = none ↔
      ∀ e1 ∈ getEdges poly1, ∀ e2 ∈ getEdges poly2, edgeMatch e1 e2 = false := by
  rw [findSharedEdge, List.find?_eq_none]
  simp [List.any_eq_true]

lemma mergePolygons_eq_none_iff_findSharedEdge (poly1 poly2 : Polygon) :
    mergePolygons poly1 poly2 = none ↔ findSharedEdge poly1 poly2 = none := by
  cases h : findSharedEdge poly1 poly2 with
  | none => simp [mergePolygons, h]
  | some e => obtain ⟨a, b⟩ := e; simp [mergePolygons, h]

/-! ### Convexity is preserved by the merge loops -/

lemma mergeInner_fst_convex (triangles : List Polygon) :
    ∀ (adjs : List Nat) (poly : Polygon) (visited : List Nat),
      isConvex poly = true →
      isConvex (mergeInner triangles adjs poly visited).1 = true := by
  intro adjs
  induction adjs with
  | nil => intro poly visited h; simpa [mergeInner] using h
  | cons j rest ih =>
    intro poly visited h
    rw [mergeInner]
    by_cases hv : j ∈ visited
    · rw [if_pos hv]; exact ih poly visited h
    · rw [if_neg hv]
      cases hm : mergePolygons poly (triangles.getD j []) with
      | none => exact ih poly visited h
      | some candidate =>
        dsimp only
        by_cases hc : isConvex candidate = true
        · rw [if_pos hc]; exact ih candidate _ hc
        · rw [if_neg hc]; exact ih poly visited h

lemma getD_length_three (triangles : List Polygon)
    (h : ∀ t ∈ triangles, t.length = 3) (i : Nat) (hi : i < triangles.length) :
    (triangles.getD i []).length = 3 := by
  rw [List.getD_eq_getElem _ _ hi]
  exact h _ (List.getElem_mem hi)

lemma mergeOuter_forall_convex (triangles : List Polygon)
    (adj : List (List Nat)) (h : ∀ t ∈ triangles, t.length = 3) :
    ∀ (idxs : List Nat) (visited : List Nat),
      (∀ i ∈ idxs, i < triangles.length) →
      ∀ p ∈ mergeOuter triangles adj idxs visited, isConvex p = true := by
  intro idxs
  induction idxs with
  | nil => simp [mergeOuter]
  | cons i rest ih =>
    intro visited hbound p hp
    rw [mergeOuter] at hp
    by_cases hv : i ∈ visited
    · rw [if_pos hv] at hp
      exact ih visited (fun k hk => hbound k (List.mem_cons_of_mem _ hk)) p hp
    · rw [if_neg hv] at hp
      rcases List.mem_cons.mp hp with rfl | hmem
      · apply mergeInner_fst_convex
        apply isConvex_of_length_three
        exact getD_length_three triangles h i (hbound i (List.mem_cons_self i rest))
      · exact ih _ (fun k hk => hbound k (List.mem_cons_of_mem _ hk)) p hmem

lemma merge_output_convex (triangles : List Polygon)
    (h : ∀ t ∈ triangles, t.length = 3) :
    ∀ p ∈ mergeTrianglesToConvexPolygons triangles, isConvex p = true := by
  intro p hp
  exact mergeOuter_forall_convex triangles (buildAdjacency triangles) h
    (List.range triangles.length) [] (fun i hi => List.mem_range.mp hi) p hp

lemma triangulateWithEarcut_lengths
    (earcutFn : List ℚ → List Nat → Nat → List Nat)
    (vertices : List ℚ) (holes : List Nat) :
    ∀ t ∈ triangulateWithEarcut earcutFn vertices holes, t.length = 3 := by
  intro t ht
  simp only [triangulateWithEarcut, List.mem_map] at ht
  obtain ⟨k, _, rfl⟩ := ht
  simp [triangleAt]

/-! ### Input validation -/

lemma validateObstacles_ok_iff :
    ∀ (obs : List Polygon) (k : Nat),
      validateObstacles obs k = Except.ok () ↔
        ∀ o ∈ obs, 3 ≤ o.length ∧ isConvex o = true := by
  intro obs
  induction obs with
  | nil => simp [validateObstacles]
  | cons o rest ih =>
    intro k
    rw [validateObstacles]
    by_cases h1 : o.length < 3
    · simp [h1, Nat.not_le.mpr h1]
    · by_cases h2 : isConvex o = true
      · simp [h1, h2, ih (k + 1), Nat.not_lt.mp h1]
      · simp [h1, h2]

lemma validateObstacles_error_obstacle :
    ∀ (obs : List Polygon) (k i : Nat),
      validateObstacles obs k = Except.error (InputError.invalidObstacle i) →
        k ≤ i ∧ i - k < obs.length ∧
          ((obs.getD (i - k) []).length < 3 ∨
            isConvex (obs.getD (i - k) []) = false) := by
  intro obs
  induction obs with
  | nil => intro k i h; simp [validateObstacles] at h
  | cons o rest ih =>
    intro k i h
    rw [validateObstacles] at h
    by_cases h1 : o.length < 3
    · rw [if_pos h1] at h
      have hk : k = i := by
        injection h with h
        injection h
      subst hk
      exact ⟨le_refl k, by simp, Or.inl (by simpa using h1)⟩
    · rw [if_neg h1] at h
      by_cases h2 : isConvex o = true
      · rw [if_neg (by simp [h2])] at h
        obtain ⟨hk, hlt, hbad⟩ := ih (k + 1) i h
        have hik : i - k = (i - (k + 1)) + 1 := by omega
        refine ⟨by omega, by simp; omega, ?_⟩
        rw [hik, List.getD_cons_succ]
        exact hbad
      · rw [if_pos (by simp [h2])] at h
        have hk : k = i := by
          injection h with h
          injection h
        subst hk
        refine ⟨le_refl k, by simp, Or.inr ?_⟩
        simpa [Bool.not_eq_true] using h2

/-! ### The polygon fusion splice -/

lemma takeCyc_fst_length (poly2 : Polygon) :
    ∀ (k idx : Nat), ((takeCyc poly2 idx k).1).length = k := by
  intro k
  induction k with
  | zero => simp [takeCyc]
  | succ n ih => intro idx; simp [takeCyc, ih]

lemma spliceLoop_no_match (poly2 : Polygon) (a : Point) :
    ∀ (l : List Point) (idx : Nat),
      (∀ x ∈ l, pointsEqual x a = false) →
      spliceLoop poly2 a l idx = (l, idx) := by
  intro l
  induction l with
  | nil => simp [spliceLoop]
  | cons p rest ih =>
    intro idx h
    have hp : pointsEqual p a = false := h p (List.mem_cons_self p rest)
    rw [spliceLoop, if_neg (by simp [hp])]
    simp [ih idx (fun x hx => h x (List.mem_cons_of_mem _ hx))]

lemma spliceLoop_single_match (poly2 : Polygon) (a : Point)
    (u : List Point) (v : Point) (w : List Point)
    (hu : ∀ x ∈ u, pointsEqual x a = false) (hv : pointsEqual v a = true)
    (hw : ∀ x ∈ w, pointsEqual x a = false) :
    ∀ idx : Nat,
      (spliceLoop poly2 a (u ++ v :: w) idx).1 =
        u ++ v :: ((takeCyc poly2 idx (poly2.length - 2)).1 ++ w) := by
  induction u with
  | nil =>
    intro idx
    rw [List.nil_append, spliceLoop, if_pos hv]
    simp [spliceLoop_no_match poly2 a w _ hw]
  | cons x u ih =>
    intro idx
    have hx : pointsEqual x a = false := hu x (List.mem_cons_self x u)
    rw [List.cons_append, spliceLoop, if_neg (by simp [hx])]
    simp [ih (fun y hy => hu y (List.mem_cons_of_mem _ hy)) idx]

/-! ### The triangulation-input builder -/

lemma prepLoop_spec :
    ∀ (obs : List Polygon) (off : Nat),
      (prepLoop obs off).1 = obs.flatten.flatMap (fun p => [p.x, p.y]) ∧
      (prepLoop obs off).2.length = obs.length ∧
      ∀ i < obs.length,
        (prepLoop obs off).2.getD i 0 =
          off + ((obs.take i).map List.length).sum := by
  intro obs
  induction obs with
  | nil => simp [prepLoop]
  | cons o rest ih =>
    intro off
    obtain ⟨h1, h2, h3⟩ := ih (off + o.length)
    refine ⟨by simp [prepLoop, h1], by simp [prepLoop, h2], ?_⟩
    intro i hi
    cases i with
    | zero => simp [prepLoop]
    | succ i =>
      have hstep := h3 i (by simpa using hi)
      simp only [prepLoop, List.getD_cons_succ, List.take_succ_cons,
        List.map_cons, List.sum_cons, hstep]
      omega

end Recast

/-! ## Claim theorems -/

namespace Recast

/-- C9: `pointsEqual` is reflexive (`pointsEqual p p` always holds, since both
coordinate differences are `0 < 1e-6`) and symmetric
(`pointsEqual a b = pointsEqual b a`). -/
theorem claim9_pointsEqual_refl_symm (p a b : Point) :
    pointsEqual p p = true ∧ pointsEqual a b = pointsEqual b a :=
  ⟨pointsEqual_self p, pointsEqual_comm a b⟩

/-- C4: the adjacency map built by `mergeTrianglesToConvexPolygons` is
symmetric — for indices `i, j` within range, `j` is listed as a neighbor of
`i` iff `i` is listed as a neighbor of `j` — and `shareEdge` itself is
symmetric in its two arguments. -/
theorem claim4_adjacency_symmetric (triangles : List Polygon) (i j : Nat)
    (hi : i < triangles.length) (hj : j < triangles.length) :
    (j ∈ (buildAdjacency triangles).getD i [] ↔
      i ∈ (buildAdjacency triangles).getD j []) ∧
    ∀ t1 t2 : Polygon, shareEdge t1 t2 = shareEdge t2 t1 := by
  refine ⟨?_, fun t1 t2 => shareEdge_comm t1 t2⟩
  rw [mem_buildAdjacency triangles i j hi, mem_buildAdjacency triangles j i hj]
  constructor
  · rintro ⟨_, hne, hs⟩
    exact ⟨hi, hne.symm, by rw [shareEdge_comm]; exact hs⟩
  · rintro ⟨_, hne, hs⟩
    exact ⟨hj, hne.symm, by rw [shareEdge_comm]; exact hs⟩

/-- Witness for C4 on two concrete triangles sharing the edge
`(1,0)–(0,1)`. -/
theorem claim4_witness :
    (0 : Nat) < 2 ∧ (1 : Nat) < 2 ∧
      (1 ∈ (buildAdjacency
          [[⟨0,0⟩, ⟨1,0⟩, ⟨0,1⟩], [⟨1,0⟩, ⟨1,1⟩, ⟨0,1⟩]]).getD 0 [] ↔
        0 ∈ (buildAdjacency
          [[⟨0,0⟩, ⟨1,0⟩, ⟨0,1⟩], [⟨1,0⟩, ⟨1,1⟩, ⟨0,1⟩]]).getD 1 []) :=
  ⟨by decide, by decide,
    (claim4_adjacency_symmetric
      [[⟨0,0⟩, ⟨1,0⟩, ⟨0,1⟩], [⟨1,0⟩, ⟨1,1⟩, ⟨0,1⟩]] 0 1
      (by with_unfolding_all decide) (by with_unfolding_all decide)).1⟩

/-- C1: every polygon returned by `mergeTrianglesToConvexPolygons` on a list
of triangles (3-point polygons) passes `isConvex` — the seed triangle always
passes it and every accepted fusion is checked — and hence every polygon
returned by a successful `decomposeWalkableArea` passes it, for any earcut
oracle, since the triangulation step only ever builds 3-point polygons. -/
theorem claim1_output_convex (triangles : List Polygon)
    (h : ∀ t ∈ triangles, t.length = 3) :
    (∀ p ∈ mergeTrianglesToConvexPolygons triangles, isConvex p = true) ∧
    ∀ (earcutFn : List ℚ → List Nat → Nat → List Nat)
      (boundingBox : Polygon) (obstacles : List Polygon)
      (res : List Polygon),
      decomposeWalkableArea earcutFn boundingBox obstacles = Except.ok res →
      ∀ p ∈ res, isConvex p = true := by
  refine ⟨merge_output_convex triangles h, ?_⟩
  intro earcutFn boundingBox obstacles res hres p hp
  rw [decomposeWalkableArea] at hres
  cases hval : validateInput boundingBox obstacles with
  | error e => rw [hval] at hres; cases hres
  | ok u =>
    rw [hval] at hres
    dsimp only at hres
    injection hres with hres
    subst hres
    exact merge_output_convex _
      (triangulateWithEarcut_lengths earcutFn _ _) p hp

/-- Witness for C1 on two concrete triangles tiling the unit square: the
pipeline merges them into the single convex square. -/
theorem claim1_witness :
    (([[⟨0,0⟩, ⟨1,0⟩, ⟨0,1⟩], [⟨1,0⟩, ⟨1,1⟩, ⟨0,1⟩]] : List Polygon).all
      (fun t => t.length == 3)) = true ∧
    isConvex ((mergeTrianglesToConvexPolygons
      [[⟨0,0⟩, ⟨1,0⟩, ⟨0,1⟩], [⟨1,0⟩, ⟨1,1⟩, ⟨0,1⟩]]).getD 0 []) = true :=
  ⟨by decide,
    (claim1_output_convex [[⟨0,0⟩, ⟨1,0⟩, ⟨0,1⟩], [⟨1,0⟩, ⟨1,1⟩, ⟨0,1⟩]]
      (by decide)).1 _ (by with_unfolding_all decide)⟩

/-- C3: `validateInput` succeeds iff the bounding box has exactly 4 points and
every obstacle has at least 3 points and passes `isConvex`; a wrong-sized
bounding box yields `invalidBoundingBox`; an `invalidObstacle i` error always
identifies an obstacle at position `i` of the input list that is too short or
non-convex; and on any validation error `decomposeWalkableArea` propagates
that error without producing any result. -/
theorem claim3_validation (boundingBox : Polygon) (obstacles : List Polygon) :
    (validateInput boundingBox obstacles = Except.ok () ↔
      boundingBox.length = 4 ∧
        ∀ o ∈ obstacles, 3 ≤ o.length ∧ isConvex o = true) ∧
    (boundingBox.length ≠ 4 →
      validateInput boundingBox obstacles =
        Except.error InputError.invalidBoundingBox) ∧
    (∀ i, validateInput boundingBox obstacles =
        Except.error (InputError.invalidObstacle i) →
      i < obstacles.length ∧
        ((obstacles.getD i []).length < 3 ∨
          isConvex (obstacles.getD i []) = false)) ∧
    ∀ (e : InputError) (earcutFn : List ℚ → List Nat → Nat → List Nat),
      validateInput boundingBox obstacles = Except.error e →
      decomposeWalkableArea earcutFn boundingBox obstacles =
        Except.error e := by
  refine ⟨?_, ?_, ?_, ?_⟩
  · by_cases hb : boundingBox.length = 4
    · simp [validateInput, hb, validateObstacles_ok_iff]
    · simp [validateInput, hb]
  · intro hb
    rw [validateInput, if_pos hb]
  · intro i h
    by_cases hb : boundingBox.length = 4
    · rw [validateInput, if_neg (by simp [hb])] at h
      have := validateObstacles_error_obstacle obstacles 0 i h
      simpa using this.2
    · rw [validateInput, if_pos hb] at h
      injection h with h
      cases h
  · intro e earcutFn h
    rw [decomposeWalkableArea, h]

/-- Witness for C3: a 2-point obstacle is rejected as obstacle 0 and the
pipeline propagates exactly that error. -/
theorem claim3_witness :
    validateInput [⟨0,0⟩, ⟨1,0⟩, ⟨1,1⟩, ⟨0,1⟩] [[⟨0,0⟩, ⟨1,0⟩]] =
      Except.error (InputError.invalidObstacle 0) ∧
    decomposeWalkableArea (fun _ _ _ => [])
      [⟨0,0⟩, ⟨1,0⟩, ⟨1,1⟩, ⟨0,1⟩] [[⟨0,0⟩, ⟨1,0⟩]] =
      Except.error (InputError.invalidObstacle 0) :=
  ⟨by with_unfolding_all rfl,
    (claim3_validation [⟨0,0⟩, ⟨1,0⟩, ⟨1,1⟩, ⟨0,1⟩] [[⟨0,0⟩, ⟨1,0⟩]]).2.2.2
      (InputError.invalidObstacle 0) (fun _ _ _ => [])
      (by with_unfolding_all rfl)⟩

/-- C8: `prepareEarcutInput` flattens the bounding box's vertices followed by
each obstacle's vertices, in input order, into one interleaved x,y buffer, and
returns one hole-start index per obstacle equal to the cumulative vertex count
before it: `4` for the first obstacle and `4 +` the lengths of all earlier
obstacles for each later one (vertex counts, not buffer offsets). -/
theorem claim8_prepareEarcutInput (boundingBox : Polygon)
    (obstacles : List Polygon) (h : boundingBox.length = 4) :
    (prepareEarcutInput boundingBox obstacles).1 =
      (boundingBox ++ obstacles.flatten).flatMap (fun p => [p.x, p.y]) ∧
    (prepareEarcutInput boundingBox obstacles).2.length = obstacles.length ∧
    ∀ i < obstacles.length,
      (prepareEarcutInput boundingBox obstacles).2.getD i 0 =
        4 + ((obstacles.take i).map List.length).sum := by
  obtain ⟨h1, h2, h3⟩ := prepLoop_spec obstacles boundingBox.length
  refine ⟨by simp [prepareEarcutInput, h1], by simp [prepareEarcutInput, h2], ?_⟩
  intro i hi
  have := h3 i hi
  simpa [prepareEarcutInput, h] using this

/-- Witness for C8: a square bounding box with a triangle obstacle then a quad
obstacle gets hole-start indices 4 and 7. -/
theorem claim8_witness :
    ([⟨0,0⟩, ⟨10,0⟩, ⟨10,10⟩, ⟨0,10⟩] : Polygon).length = 4 ∧
    (prepareEarcutInput [⟨0,0⟩, ⟨10,0⟩, ⟨10,10⟩, ⟨0,10⟩]
      [[⟨4,4⟩, ⟨6,4⟩, ⟨6,6⟩], [⟨1,1⟩, ⟨2,1⟩, ⟨2,2⟩, ⟨1,2⟩]]).2.getD 1 0 = 7 :=
  ⟨by decide,
    ((claim8_prepareEarcutInput [⟨0,0⟩, ⟨10,0⟩, ⟨10,10⟩, ⟨0,10⟩]
      [[⟨4,4⟩, ⟨6,4⟩, ⟨6,6⟩], [⟨1,1⟩, ⟨2,1⟩, ⟨2,2⟩, ⟨1,2⟩]] rfl).2.2 1
      (by decide)).trans (by decide)⟩

/-- C7: `isConvex` implements the specified algorithm: a polygon with fewer
than 3 points is non-convex, and otherwise the polygon is convex iff all
nonzero cross products of consecutive edge vectors share one sign (zero cross
products are skipped and do not affect the verdict) — equivalently, iff every
cross product is `≥ 0` or every cross product is `≤ 0`, which is the same as
"no later nonzero cross product has a sign different from the first nonzero
one". -/
theorem claim7_isConvex_algorithm (poly : Polygon) :
    (poly.length < 3 → isConvex poly = false) ∧
    (isConvex poly = true ↔
      3 ≤ poly.length ∧
        ((∀ i < poly.length, 0 ≤ crossAt poly i) ∨
          (∀ i < poly.length, crossAt poly i ≤ 0))) := by
  refine ⟨fun h => ?_, isConvex_iff poly⟩
  rw [isConvex, if_pos h]

/-- Witness for C7: the unit square is accepted by `isConvex`, and a 2-point
polygon is rejected. -/
theorem claim7_witness :
    ([⟨0,0⟩, ⟨1,0⟩] : Polygon).length < 3 ∧
    isConvex [⟨0,0⟩, ⟨1,0⟩] = false ∧
    isConvex [⟨0,0⟩, ⟨1,0⟩, ⟨1,1⟩, ⟨0,1⟩] = true :=
  ⟨by decide,
    (claim7_isConvex_algorithm [⟨0,0⟩, ⟨1,0⟩]).1 (by decide),
    (claim7_isConvex_algorithm [⟨0,0⟩, ⟨1,0⟩, ⟨1,1⟩, ⟨0,1⟩]).2.mpr
      ⟨by decide, Or.inl (by with_unfolding_all decide)⟩⟩

/-- C10: every 3-point polygon passes `isConvex` — for a triangle all three
cross products are equal, so no sign conflict can arise even when the
vertices are collinear or coincident — and consequently `validateInput`
accepts a zero-area obstacle whose 3 vertices lie on one line. -/
theorem claim10_three_point_convex (a b c : Point) (boundingBox : Polygon)
    (h : boundingBox.length = 4) :
    isConvex [a, b, c] = true ∧
    validateInput boundingBox [[a, b, c]] = Except.ok () := by
  refine ⟨isConvex_triangle a b c, ?_⟩
  rw [validateInput, if_neg (by simp [h])]
  rw [validateObstacles, if_neg (by simp),
    if_neg (by simp [isConvex_triangle])]
  rfl

/-- Witness for C10 at a degenerate collinear obstacle inside a unit-square
bounding box. -/
theorem claim10_witness :
    ([⟨0,0⟩, ⟨1,0⟩, ⟨1,1⟩, ⟨0,1⟩] : Polygon).length = 4 ∧
    (isConvex [⟨0,0⟩, ⟨1,0⟩, ⟨2,0⟩] = true ∧
      validateInput [⟨0,0⟩, ⟨1,0⟩, ⟨1,1⟩, ⟨0,1⟩] [[⟨0,0⟩, ⟨1,0⟩, ⟨2,0⟩]]
        = Except.ok ()) :=
  ⟨by decide,
    claim10_three_point_convex ⟨0,0⟩ ⟨1,0⟩ ⟨2,0⟩
      [⟨0,0⟩, ⟨1,0⟩, ⟨1,1⟩, ⟨0,1⟩] (by decide)⟩

/-- C5 counterexample: the claim asserts the spliced-in vertices of polygon 2
exclude both shared-edge endpoints, so the result contains no duplicate of
either endpoint coming from polygon 2. Take `poly1 = [(0,0),(1,0),(0,1)]` and
`poly2 = [(0,0),(1,0),(2,2)]`, which share the edge `(0,0)–(1,0)` traversed
in the same direction by both. The code drops `poly2`'s occurrence of `(0,0)`
and its cyclic predecessor `(2,2)` — not the two shared endpoints — so the
splice inserts the shared endpoint `(1,0)` again: the result is
`[(0,0),(1,0),(1,0),(0,1)]`, which contains `(1,0)` twice (and has lost
`(2,2)` entirely). -/
theorem claim5_counterexample :
    findSharedEdge [⟨0,0⟩, ⟨1,0⟩, ⟨0,1⟩] [⟨0,0⟩, ⟨1,0⟩, ⟨2,2⟩] =
      some (⟨0,0⟩, ⟨1,0⟩) ∧
    mergePolygons [⟨0,0⟩, ⟨1,0⟩, ⟨0,1⟩] [⟨0,0⟩, ⟨1,0⟩, ⟨2,2⟩] =
      some [⟨0,0⟩, ⟨1,0⟩, ⟨1,0⟩, ⟨0,1⟩] ∧
    ((mergePolygons [⟨0,0⟩, ⟨1,0⟩, ⟨0,1⟩] [⟨0,0⟩, ⟨1,0⟩, ⟨2,2⟩]).getD
      []).count ⟨1,0⟩ = 2 := by
  refine ⟨?_, ?_, ?_⟩ <;> with_unfolding_all rfl

/-- C5 (amended): when the two polygons share an edge (`findSharedEdge`
returns `(a, b)`) and exactly one vertex `v` of polygon 1 matches the shared
edge's first endpoint `a`, `mergePolygons` emits polygon 1's vertices in
order and, immediately after `v`, inserts the `|poly2| - 2` vertices of
polygon 2 taken in polygon 2's own cyclic order starting just past the first
occurrence of `a` in polygon 2 (thereby excluding that occurrence and its
cyclic predecessor — these are the two shared-edge endpoints only when the
polygons traverse the shared edge in opposite directions); the result then
has `|poly1| + |poly2| - 2` vertices. -/
theorem claim5_merge_splice (poly1 poly2 : Polygon) (a b v : Point)
    (u w : List Point)
    (hfind : findSharedEdge poly1 poly2 = some (a, b))
    (hsplit : poly1 = u ++ v :: w)
    (hv : pointsEqual v a = true)
    (hu : ∀ x ∈ u, pointsEqual x a = false)
    (hw : ∀ x ∈ w, pointsEqual x a = false)
    (hlen2 : 2 ≤ poly2.length) :
    mergePolygons poly1 poly2 =
      some (u ++ v ::
        ((takeCyc poly2 (spliceStart poly2 a) (poly2.length - 2)).1 ++ w)) ∧
    ∀ r, mergePolygons poly1 poly2 = some r →
      r.length = poly1.length + poly2.length - 2 := by
  have hmain : mergePolygons poly1 poly2 =
      some (u ++ v ::
        ((takeCyc poly2 (spliceStart poly2 a) (poly2.length - 2)).1 ++ w)) := by
    rw [mergePolygons, hfind, hsplit]
    dsimp only
    rw [spliceLoop_single_match poly2 a u v w hu hv hw]
  refine ⟨hmain, ?_⟩
  intro r hr
  rw [hmain] at hr
  injection hr with hr
  subst hr
  simp [hsplit, takeCyc_fst_length]
  omega

/-- Witness for C5 (amended): two triangles sharing the edge `(0,0)–(1,0)`
traversed in opposite directions splice into a 4-vertex quad. -/
theorem claim5_witness :
    findSharedEdge [⟨0,0⟩, ⟨1,0⟩, ⟨0,1⟩] [⟨1,0⟩, ⟨0,0⟩, ⟨2,-1⟩] =
      some (⟨0,0⟩, ⟨1,0⟩) ∧
    mergePolygons [⟨0,0⟩, ⟨1,0⟩, ⟨0,1⟩] [⟨1,0⟩, ⟨0,0⟩, ⟨2,-1⟩] =
      some [⟨0,0⟩, ⟨2,-1⟩, ⟨1,0⟩, ⟨0,1⟩] ∧
    ([⟨0,0⟩, ⟨2,-1⟩, ⟨1,0⟩, ⟨0,1⟩] : Polygon).length =
      ([⟨0,0⟩, ⟨1,0⟩, ⟨0,1⟩] : Polygon).length +
        ([⟨1,0⟩, ⟨0,0⟩, ⟨2,-1⟩] : Polygon).length - 2 := by
  have h := claim5_merge_splice [⟨0,0⟩, ⟨1,0⟩, ⟨0,1⟩] [⟨1,0⟩, ⟨0,0⟩, ⟨2,-1⟩]
    ⟨0,0⟩ ⟨1,0⟩ ⟨0,0⟩ [] [⟨1,0⟩, ⟨0,1⟩]
    (by with_unfolding_all rfl) rfl (by with_unfolding_all rfl)
    (by simp) (by with_unfolding_all decide) (by decide)
  have hmerge : mergePolygons [⟨0,0⟩, ⟨1,0⟩, ⟨0,1⟩] [⟨1,0⟩, ⟨0,0⟩, ⟨2,-1⟩] =
      some [⟨0,0⟩, ⟨2,-1⟩, ⟨1,0⟩, ⟨0,1⟩] :=
    h.1.trans (by with_unfolding_all rfl)
  exact ⟨by with_unfolding_all rfl, hmerge,
    h.2 [⟨0,0⟩, ⟨2,-1⟩, ⟨1,0⟩, ⟨0,1⟩] hmerge⟩

/-- C6: `mergePolygons` returns `none` iff no edge of polygon 1 matches an
edge of polygon 2 under tolerance-based point equality in either direction. -/
theorem claim6_merge_none_iff_no_shared_edge (poly1 poly2 : Polygon) :
    mergePolygons poly1 poly2 = none ↔
      ∀ e1 ∈ getEdges poly1, ∀ e2 ∈ getEdges poly2, edgeMatch e1 e2 = false := by
  rw [mergePolygons_eq_none_iff_findSharedEdge,
    findSharedEdge_eq_none_iff]

/-- Witness for C6: two far-apart triangles have no shared edge, so the merge
returns `none`. -/
theorem claim6_witness :
    mergePolygons [⟨0,0⟩, ⟨1,0⟩, ⟨0,1⟩] [⟨5,5⟩, ⟨6,5⟩, ⟨5,6⟩] = none :=
  (claim6_merge_none_iff_no_shared_edge
    [⟨0,0⟩, ⟨1,0⟩, ⟨0,1⟩] [⟨5,5⟩, ⟨6,5⟩, ⟨5,6⟩]).mpr
    (by with_unfolding_all decide)

end Recast
